import Mathlib

/-!
Verification development for the coinverter backend (src/backend/main.py).

The Python module is shallowly embedded: the process-wide mutable caches
become an explicit `CacheState` record threaded through each handler, the
network is an oracle record `Env` supplying the upstream responses, Python
floats are modelled as rationals, `time.time()` is an explicit rational
argument `now`, and raised exceptions become `Except` errors.  Each handler
additionally reports how many upstream gateway calls it performed.
-/

set_option autoImplicit false

namespace Coinverter

/-- Errors raised by the Python code: an HTTPException carrying a status
code, or an unhandled ZeroDivisionError from float division by zero. -/
inductive PyError where
  | http (status : Nat)
  | zeroDivision
deriving DecidableEq, Repr

/-- Outcome of one upstream HTTP request as seen by `requests.get` plus
`raise_for_status`: either the transport failed before any response
(connection error or timeout), or a response with a status code and an
already-JSON-decoded body arrived. -/
inductive HttpResp (α : Type) where
  | transportError
  | ok (status : Nat) (body : α)
deriving DecidableEq, Repr

/-- One element of the BACEN SGS JSON array as consumed by
`fetch_bacen_rate`: only the "valor" field is read there, via `.get`, so it
is optional. -/
structure BacenEntry where
  valor : Option String
deriving DecidableEq, Repr

/-- One element of the BACEN SGS JSON array as consumed by
`fetch_bacen_history`: both the "data" (date) and "valor" fields are read
with mandatory indexing, so a missing field is a KeyError, modelled by
`none`. -/
structure BacenHistEntry where
  dateStr : Option String
  valor : Option String
deriving DecidableEq, Repr

/-- The CoinGecko spot-price response as consumed by `fetch_btc_rate`:
the body is the value of data["bitcoin"]["brl"] when both keys are present. -/
abbrev BtcResp := HttpResp (Option ℚ)

/-- The external world: responses of the two upstream providers.  BACEN
series responses are keyed by SGS series id (and day window for history);
CoinGecko history responses are keyed by the day count. -/
structure Env where
  bacen : Nat → HttpResp (List BacenEntry)
  btc : BtcResp
  bacenHist : Nat → Nat → HttpResp (List BacenHistEntry)
  btcHist : Nat → HttpResp (List (Nat × ℚ))

/-- The module-level mutable state of main.py: the spot-rate dict with its
single shared timestamp, the per-key history dict and timestamp dict, and
the BTC cache pair.  Python dicts are association lists where an insert
shadows earlier bindings. -/
structure CacheState where
  cache_rates : List (String × ℚ)
  cache_time : ℚ
  cache_history : List (String × List (String × ℚ))
  cache_history_time : List (String × ℚ)
  btc_cache : Option ℚ
  btc_cache_time : ℚ
deriving DecidableEq, Repr

/-- State at process start (cache_rates = {}, cache_time = 0,
cache_history = {}, cache_history_time = {}, btc_cache = None,
btc_cache_time = 0). -/
def initState : CacheState := ⟨[], 0, [], [], none, 0⟩

/-- CACHE_DURATION = 900 seconds. -/
def CACHE_DURATION : ℚ := 900

/-- SGS series ids of the supported fiat currencies. -/
def CURRENCY_CODES : List (String × Nat) := [("USD", 1), ("EUR", 21619), ("GBP", 21623)]

/-- Result of running one handler: its value or raised error, the cache
state it leaves behind, and the number of upstream gateway calls it made. -/
structure StepResult (α : Type) where
  result : Except PyError α
  state : CacheState
  calls : Nat

instance {ε α : Type} [DecidableEq ε] [DecidableEq α] : DecidableEq (Except ε α) := fun a b =>
  match a, b with
  | .error e, .error f => if h : e = f then .isTrue (by rw [h]) else .isFalse (by simp [h])
  | .ok u, .ok v => if h : u = v then .isTrue (by rw [h]) else .isFalse (by simp [h])
  | .error _, .ok _ => .isFalse (by simp)
  | .ok _, .error _ => .isFalse (by simp)

instance {α : Type} [DecidableEq α] : DecidableEq (StepResult α) := fun a b =>
  match a, b with
  | ⟨r, s, c⟩, ⟨r2, s2, c2⟩ =>
    if h : r = r2 ∧ s = s2 ∧ c = c2 then
      .isTrue (by obtain ⟨h1, h2, h3⟩ := h; rw [h1, h2, h3])
    else .isFalse (by intro hc; cases hc; exact h ⟨rfl, rfl, rfl⟩)

/-! ## Decimal parsing

Models Python float(s) on plain decimal literals, after the comma-to-dot
replacement done by the gateways.  BACEN "valor" strings are plain decimal
numbers with a comma separator, e.g. "5,23". -/

/-- Numeric value of a digit character. -/
def digitVal (c : Char) : Nat := c.toNat - 48

/-- Value of a digit string read left to right. -/
def digitsVal (cs : List Char) : Nat := cs.foldl (fun acc c => 10 * acc + digitVal c) 0

/-- Parses an unsigned decimal literal (digits, optionally a dot and more
digits, at least one digit overall), as Python float() does on such
strings. -/
def parseUnsignedDecimal (cs : List Char) : Option ℚ :=
  let intPart := cs.takeWhile Char.isDigit
  let rest := cs.dropWhile Char.isDigit
  match rest with
  | [] => if intPart.isEmpty then none else some (mkRat (digitsVal intPart) 1)
  | '.' :: frac =>
    if frac.all Char.isDigit && !(intPart.isEmpty && frac.isEmpty) then
      some (mkRat (digitsVal (intPart ++ frac)) (10 ^ frac.length))
    else none
  | _ => none

/-- Models float(s) on an optionally negated plain decimal literal; any
other string raises ValueError, modelled by `none`. -/
def parseDecimal (s : String) : Option ℚ :=
  match s.data with
  | '-' :: rest => (parseUnsignedDecimal rest).map (fun q => -q)
  | cs => parseUnsignedDecimal cs

/-- The replace(",", ".") step applied to "valor" strings. -/
def replaceCommaDot (s : String) : String :=
  String.mk (s.data.map (fun c => if c = ',' then '.' else c))

/-- Models the .upper() normalization applied to currency codes:
uppercases every character. -/
def pyUpper (s : String) : String := String.mk (s.data.map Char.toUpper)

/-! ## Upstream gateways -/

/-- Embeds fetch_bacen_rate (main.py lines 61-96) applied to the provider
response for its series id: raise_for_status turns a 4xx/5xx status into an
HTTPException with that upstream status; an empty body, a missing "valor",
a "valor" that float() cannot parse, and the sentinel value -1 are raised
inside the try block and caught by the generic handler as status 500; a
transport error (no response) is likewise caught as 500.  On success the
last entry's "valor" is returned with the comma separator converted. -/
def fetch_bacen_rate (resp : HttpResp (List BacenEntry)) : Except PyError ℚ :=
  match resp with
  | .transportError => .error (.http 500)
  | .ok status body =>
    if 400 ≤ status then .error (.http status)
    else
      match body.getLast? with
      | none => .error (.http 500)
      | some last =>
        match last.valor with
        | none => .error (.http 500)
        | some s =>
          match parseDecimal (replaceCommaDot s) with
          | none => .error (.http 500)
          | some v => if v = -1 then .error (.http 500) else .ok v

/-- Embeds fetch_btc_rate (main.py lines 35-43): every failure, including a
non-2xx status and missing JSON keys, is caught by the single generic
handler and raised as status 500. -/
def fetch_btc_rate (resp : BtcResp) : Except PyError ℚ :=
  match resp with
  | .transportError => .error (.http 500)
  | .ok status price =>
    if 400 ≤ status then .error (.http 500)
    else
      match price with
      | none => .error (.http 500)
      | some v => .ok v

/-! ## Calendar dates

fetch_btc_history turns a millisecond epoch timestamp into a YYYY-MM-DD
string; fetch_bacen_history reformats a DD/MM/YYYY string to YYYY-MM-DD.
The civil-calendar computation below is the standard days-to-date
algorithm (the Python code renders in the process's timezone; the model
renders the same instant in UTC). -/

/-- Left-pads the decimal rendering of n with zeros to width w
(strftime zero padding). -/
def padNum (w : Nat) (n : Nat) : String :=
  let s := toString n
  String.mk (List.replicate (w - s.length) '0') ++ s

/-- Civil (year, month, day) of a day count since 1970-01-01. -/
def civilFromDays (days : Nat) : Nat × Nat × Nat :=
  let z := days + 719468
  let era := z / 146097
  let doe := z % 146097
  let yoe := (doe - doe / 1460 + doe / 36524 - doe / 146096) / 365
  let y := yoe + era * 400
  let doy := doe - (365 * yoe + yoe / 4 - yoe / 100)
  let mp := (5 * doy + 2) / 153
  let d := doy - (153 * mp + 2) / 5 + 1
  let m := if mp < 10 then mp + 3 else mp - 9
  (if m ≤ 2 then y + 1 else y, m, d)

/-- Models datetime.fromtimestamp(ms / 1000).strftime of the "%Y-%m-%d"
pattern: the calendar date of a millisecond epoch timestamp. -/
def dateOfMillis (ms : Nat) : String :=
  let c := civilFromDays (ms / 1000 / 86400)
  padNum 4 c.1 ++ "-" ++ padNum 2 c.2.1 ++ "-" ++ padNum 2 c.2.2

/-- Models datetime.strptime(s, "%d/%m/%Y").strftime("%Y-%m-%d"):
reformats a day/month/year date string, zero-padding the parts; a string
not of that shape raises ValueError, modelled by `none`. -/
def reformatBacenDate (s : String) : Option String :=
  match s.splitOn "/" with
  | [d, m, y] =>
    if !d.isEmpty && d.data.all Char.isDigit &&
       !m.isEmpty && m.data.all Char.isDigit &&
       !y.isEmpty && y.data.all Char.isDigit &&
       decide (1 ≤ digitsVal m.data) && decide (digitsVal m.data ≤ 12) &&
       decide (1 ≤ digitsVal d.data) && decide (digitsVal d.data ≤ 31) then
      some (padNum 4 (digitsVal y.data) ++ "-" ++ padNum 2 (digitsVal m.data)
            ++ "-" ++ padNum 2 (digitsVal d.data))
    else none
  | _ => none

/-! ## History gateways -/

/-- Embeds the dict-building loop of fetch_btc_history: a Python dict
assignment shadows any earlier binding of the same key, so an insert conses
in front and lookup takes the newest binding. -/
def buildBtcSeries (prices : List (Nat × ℚ)) : List (String × ℚ) :=
  prices.foldl (fun acc e => (dateOfMillis e.1, e.2) :: acc) []

/-- Embeds fetch_btc_history (main.py lines 45-58): any transport error or
non-2xx status is caught by the generic handler as status 500; otherwise
each (timestamp, price) sample becomes an entry keyed by calendar date,
later same-day samples overwriting earlier ones. -/
def fetch_btc_history (resp : HttpResp (List (Nat × ℚ))) : Except PyError (List (String × ℚ)) :=
  match resp with
  | .transportError => .error (.http 500)
  | .ok status prices =>
    if 400 ≤ status then .error (.http 500)
    else .ok (buildBtcSeries prices)

/-- Embeds the entry loop of fetch_bacen_history: a KeyError on a missing
field, a malformed date, or an unparseable value raises, caught as 500. -/
def buildBacenSeries : List BacenHistEntry → List (String × ℚ) → Except PyError (List (String × ℚ))
  | [], acc => .ok acc
  | e :: rest, acc =>
    match e.dateStr, e.valor with
    | some ds, some vs =>
      match reformatBacenDate ds, parseDecimal (replaceCommaDot vs) with
      | some date, some v => buildBacenSeries rest ((date, v) :: acc)
      | _, _ => .error (.http 500)
    | _, _ => .error (.http 500)

/-- Embeds fetch_bacen_history (main.py lines 100-117): every failure,
including a non-2xx status, an empty body and any parse error, is caught
by the single generic handler as status 500. -/
def fetch_bacen_history (resp : HttpResp (List BacenHistEntry)) : Except PyError (List (String × ℚ)) :=
  match resp with
  | .transportError => .error (.http 500)
  | .ok status body =>
    if 400 ≤ status then .error (.http 500)
    else if body.isEmpty then .error (.http 500)
    else buildBacenSeries body []

/-! ## Cached BTC rate and rate resolution -/

/-- Python truthiness of the btc_cache slot: None and 0.0 are falsy. -/
def btcTruthy : Option ℚ → Bool
  | none => false
  | some v => v != 0

/-- Embeds fetch_btc_rate_cached (main.py lines 124-132): serves the cached
value when btc_cache is truthy and its private timestamp is fresh,
otherwise fetches, and on success stores the value and stamps
btc_cache_time. -/
def fetch_btc_rate_cached (resp : BtcResp) (s : CacheState) (now : ℚ) : StepResult ℚ :=
  if btcTruthy s.btc_cache && decide (now - s.btc_cache_time < CACHE_DURATION) then
    ⟨.ok (s.btc_cache.getD 0), s, 0⟩
  else
    match fetch_btc_rate resp with
    | .error e => ⟨.error e, s, 1⟩
    | .ok v => ⟨.ok v, { s with btc_cache := some v, btc_cache_time := now }, 1⟩

/-- The cache-hit test of main.py line 142: cache_rates is truthy
(non-empty), the shared timestamp is fresh, and the currency has an entry. -/
def spot_valid (s : CacheState) (now : ℚ) (currency : String) : Bool :=
  !s.cache_rates.isEmpty && decide (now - s.cache_time < CACHE_DURATION) &&
    (s.cache_rates.lookup currency).isSome

/-- The miss path of get_rates (main.py lines 145-150): dispatch to the
cached BTC fetch for "BTC", to the BACEN gateway for a supported fiat code,
and reject anything else with 400 before any network call. -/
def dispatch_fetch (env : Env) (s : CacheState) (now : ℚ) (currency : String) : StepResult ℚ :=
  if currency = "BTC" then fetch_btc_rate_cached env.btc s now
  else
    match CURRENCY_CODES.lookup currency with
    | some sid =>
      match fetch_bacen_rate (env.bacen sid) with
      | .ok v => ⟨.ok v, s, 1⟩
      | .error e => ⟨.error e, s, 1⟩
    | none => ⟨.error (.http 400), s, 0⟩

/-- The cache write of get_rates (main.py lines 152-153): on a successful
fetch, store the value under the code and stamp the shared cache_time to
now; a raised error propagates and writes nothing. -/
def commit_spot (now : ℚ) (currency : String) (f : StepResult ℚ) : StepResult (String × ℚ) :=
  match f.result with
  | .error e => ⟨.error e, f.state, f.calls⟩
  | .ok v =>
    ⟨.ok (currency, v),
     { f.state with cache_rates := (currency, v) :: f.state.cache_rates, cache_time := now },
     f.calls⟩

/-- Body of get_rates after the currency.upper() normalization (main.py
lines 139-155): on a spot-cache hit, return the cached value unchanged;
on a miss, fetch and commit. -/
def resolve_rate (env : Env) (s : CacheState) (now : ℚ) (currency : String) :
    StepResult (String × ℚ) :=
  if spot_valid s now currency then
    ⟨.ok (currency, (s.cache_rates.lookup currency).getD 0), s, 0⟩
  else commit_spot now currency (dispatch_fetch env s now currency)

/-- Embeds the GET /rate/{currency} handler get_rates (main.py lines
135-155). -/
def get_rates (env : Env) (s : CacheState) (now : ℚ) (currency : String) :
    StepResult (String × ℚ) :=
  resolve_rate env s now (pyUpper currency)

/-! ## History resolution -/

/-- The history cache-hit test of main.py line 170: the key has a cached
series and the default-0 lookup of that key's own timestamp is fresh. -/
def hist_valid (s : CacheState) (now : ℚ) (key : String) : Bool :=
  (s.cache_history.lookup key).isSome &&
    decide (now - ((s.cache_history_time.lookup key).getD 0) < CACHE_DURATION)

/-- Embeds the GET /history handler get_history (main.py lines 158-186):
validate the base code and day range, then serve the per-key cached series
when that key's own timestamp is fresh, else fetch the full series by the
crypto or fiat path and cache it under its key with its own timestamp. -/
def get_history (env : Env) (s : CacheState) (now : ℚ) (base0 : String) (days : Nat) :
    StepResult (List (String × ℚ)) :=
  let base := pyUpper base0
  if base ≠ "BTC" && (CURRENCY_CODES.lookup base).isNone then
    ⟨.error (.http 400), s, 0⟩
  else if !(decide (1 ≤ days) && decide (days ≤ 365)) then
    ⟨.error (.http 400), s, 0⟩
  else
    let key := base ++ "_" ++ toString days
    if hist_valid s now key then
      ⟨.ok ((s.cache_history.lookup key).getD []), s, 0⟩
    else
      let fetched : Except PyError (List (String × ℚ)) :=
        if base = "BTC" then fetch_btc_history (env.btcHist days)
        else fetch_bacen_history (env.bacenHist ((CURRENCY_CODES.lookup base).getD 0) days)
      match fetched with
      | .error e => ⟨.error e, s, 1⟩
      | .ok result =>
        ⟨.ok result,
         { s with cache_history := (key, result) :: s.cache_history,
                  cache_history_time := (key, now) :: s.cache_history_time },
         1⟩

/-! ## Conversion -/

/-- The supported set of the /convert endpoint. -/
def supported_currencies : List String := ["USD", "EUR", "GBP", "BTC", "BRL"]

/-- Embeds the inner get_rate closure of convert_amount (main.py lines
204-212): BRL is the fixed base with rate 1.0 and no fetch; BTC goes
through the cached BTC fetch; a fiat code always calls the BACEN gateway
directly (the spot cache is not consulted and not written). -/
def get_rate (env : Env) (s : CacheState) (now : ℚ) (currency : String) : StepResult ℚ :=
  if currency = "BRL" then ⟨.ok 1, s, 0⟩
  else if currency = "BTC" then fetch_btc_rate_cached env.btc s now
  else
    match CURRENCY_CODES.lookup currency with
    | some sid =>
      match fetch_bacen_rate (env.bacen sid) with
      | .ok v => ⟨.ok v, s, 1⟩
      | .error e => ⟨.error e, s, 1⟩
    | none => ⟨.error (.http 400), s, 0⟩

/-- Embeds the GET /convert handler convert_amount (main.py lines
191-223): uppercase both codes, reject a code outside the supported set
with 400, resolve the two rates through get_rate in order, multiply by the
source rate and divide by the target rate.  Python float division by zero
raises ZeroDivisionError, modelled as the zeroDivision error; there is no
zero guard in the code. -/
def convert_amount (env : Env) (s : CacheState) (now : ℚ)
    (from_currency0 to_currency0 : String) (amount : ℚ) : StepResult ℚ :=
  let from_currency := pyUpper from_currency0
  let to_currency := pyUpper to_currency0
  if !(supported_currencies.contains from_currency) ||
     !(supported_currencies.contains to_currency) then
    ⟨.error (.http 400), s, 0⟩
  else
    let r1 := get_rate env s now from_currency
    match r1.result with
    | .error e => ⟨.error e, r1.state, r1.calls⟩
    | .ok from_rate =>
      let r2 := get_rate env r1.state now to_currency
      match r2.result with
      | .error e => ⟨.error e, r2.state, r1.calls + r2.calls⟩
      | .ok to_rate =>
        if to_rate = 0 then ⟨.error .zeroDivision, r2.state, r1.calls + r2.calls⟩
        else ⟨.ok (amount * from_rate / to_rate), r2.state, r1.calls + r2.calls⟩

/-! ## Concrete environments and states used in counterexamples and
witnesses -/

/-- A healthy world: BACEN answers 6,00 for the USD series and 2,00 for
every other series; CoinGecko answers a spot price of 500000 and a
two-sample history. -/
def envA : Env where
  bacen := fun sid => if sid = 1 then .ok 200 [⟨some "6,00"⟩] else .ok 200 [⟨some "2,00"⟩]
  btc := .ok 200 (some 500000)
  bacenHist := fun _ _ => .ok 200 [⟨some "01/02/2024", some "4,99"⟩]
  btcHist := fun _ => .ok 200 [(0, 10), (1000, 20)]

/-- A world where every upstream call fails in transport. -/
def envDown : Env where
  bacen := fun _ => .transportError
  btc := .transportError
  bacenHist := fun _ _ => .transportError
  btcHist := fun _ => .transportError

/-- A world where the EUR series reports the rate 0,00 (which passes every
check in fetch_bacen_rate) and the USD series reports 5,23. -/
def envZero : Env where
  bacen := fun sid => if sid = 21619 then .ok 200 [⟨some "0,00"⟩] else .ok 200 [⟨some "5,23"⟩]
  btc := .ok 200 (some 500000)
  bacenHist := fun _ _ => .ok 200 [⟨some "01/02/2024", some "4,99"⟩]
  btcHist := fun _ => .ok 200 [(0, 10), (1000, 20)]

/-- A state whose spot cache holds USD at 5 with the shared timestamp 0. -/
def stateUsd5 : CacheState := { initState with cache_rates := [("USD", 5)], cache_time := 0 }

/-- A state whose BTC cache holds 5 with its private timestamp 0. -/
def stateBtc5 : CacheState := { initState with btc_cache := some 5, btc_cache_time := 0 }

/-- A state whose BTC cache holds the falsy value 0 with its private
timestamp 0. -/
def stateBtc0 : CacheState := { initState with btc_cache := some 0, btc_cache_time := 0 }

/-- A state whose spot cache holds a stale EUR entry: EUR maps to 7 but the
shared timestamp is 0, far in the past. -/
def stateStaleEur : CacheState := { initState with cache_rates := [("EUR", 7)], cache_time := 0 }

/-- A state with a cached USD_30 history series stamped at time 0. -/
def stateHist30 : CacheState :=
  { initState with cache_history := [("USD_30", [("2024-02-01", 3)])],
                   cache_history_time := [("USD_30", 0)] }

end Coinverter

namespace Coinverter

/-! ## Association-list and cache helper lemmas -/

theorem lookup_cons_self {α : Type} (l : List (String × α)) (k : String) (v : α) :
    List.lookup k ((k, v) :: l) = some v := by
  simp [List.lookup_cons]

theorem lookup_cons_ne {α : Type} (l : List (String × α)) (k a : String) (v : α) (h : k ≠ a) :
    List.lookup k ((a, v) :: l) = List.lookup k l := by
  simp [List.lookup_cons, beq_eq_false_iff_ne.mpr h]

theorem lookup_isSome_not_isEmpty {α : Type} (l : List (String × α)) (k : String)
    (h : (l.lookup k).isSome = true) : l.isEmpty = false := by
  cases l <;> simp_all [List.lookup]

/-- Every possible run of fetch_btc_rate_cached: a cache hit, a failed
fetch leaving the state alone, or a successful fetch rewriting only the
BTC slots. -/
theorem btc_cached_characterization (resp : BtcResp) (s : CacheState) (now : ℚ) :
    ((btcTruthy s.btc_cache && decide (now - s.btc_cache_time < CACHE_DURATION)) = true ∧
      fetch_btc_rate_cached resp s now = ⟨.ok (s.btc_cache.getD 0), s, 0⟩) ∨
    ((btcTruthy s.btc_cache && decide (now - s.btc_cache_time < CACHE_DURATION)) = false ∧
      ((∃ e, fetch_btc_rate resp = .error e ∧
          fetch_btc_rate_cached resp s now = ⟨.error e, s, 1⟩) ∨
       (∃ v, fetch_btc_rate resp = .ok v ∧
          fetch_btc_rate_cached resp s now =
            ⟨.ok v, { s with btc_cache := some v, btc_cache_time := now }, 1⟩))) := by
  cases hc : (btcTruthy s.btc_cache && decide (now - s.btc_cache_time < CACHE_DURATION))
  · refine .inr ⟨rfl, ?_⟩
    cases hf : fetch_btc_rate resp with
    | error e => exact .inl ⟨e, rfl, by simp [fetch_btc_rate_cached, hc, hf]⟩
    | ok v => exact .inr ⟨v, rfl, by simp [fetch_btc_rate_cached, hc, hf]⟩
  · exact .inl ⟨rfl, by simp [fetch_btc_rate_cached, hc]⟩

theorem btc_cached_calls_le_one (resp : BtcResp) (s : CacheState) (now : ℚ) :
    (fetch_btc_rate_cached resp s now).calls ≤ 1 := by
  rcases btc_cached_characterization resp s now with ⟨-, h⟩ | ⟨-, ⟨e, -, h⟩ | ⟨v, -, h⟩⟩ <;>
    simp [h]

theorem btc_cached_frame (resp : BtcResp) (s : CacheState) (now : ℚ) :
    (fetch_btc_rate_cached resp s now).state.cache_rates = s.cache_rates ∧
    (fetch_btc_rate_cached resp s now).state.cache_time = s.cache_time ∧
    (fetch_btc_rate_cached resp s now).state.cache_history = s.cache_history ∧
    (fetch_btc_rate_cached resp s now).state.cache_history_time = s.cache_history_time := by
  rcases btc_cached_characterization resp s now with ⟨-, h⟩ | ⟨-, ⟨e, -, h⟩ | ⟨v, -, h⟩⟩ <;>
    simp [h]

theorem btc_cached_error_state (resp : BtcResp) (s : CacheState) (now : ℚ) (e : PyError)
    (h : (fetch_btc_rate_cached resp s now).result = .error e) :
    (fetch_btc_rate_cached resp s now).state = s := by
  rcases btc_cached_characterization resp s now with ⟨-, hr⟩ | ⟨-, ⟨f, -, hr⟩ | ⟨v, -, hr⟩⟩ <;>
    simp_all [hr]

/-! ## dispatch_fetch and commit_spot lemmas -/

theorem dispatch_btc (env : Env) (s : CacheState) (now : ℚ) :
    dispatch_fetch env s now "BTC" = fetch_btc_rate_cached env.btc s now := by
  simp [dispatch_fetch]

theorem dispatch_fiat_ok (env : Env) (s : CacheState) (now : ℚ) (c : String) (sid : Nat) (v : ℚ)
    (hc : c ≠ "BTC") (hsid : CURRENCY_CODES.lookup c = some sid)
    (hf : fetch_bacen_rate (env.bacen sid) = .ok v) :
    dispatch_fetch env s now c = ⟨.ok v, s, 1⟩ := by
  simp [dispatch_fetch, hc, hsid, hf]

theorem dispatch_fiat_error (env : Env) (s : CacheState) (now : ℚ) (c : String) (sid : Nat)
    (e : PyError) (hc : c ≠ "BTC") (hsid : CURRENCY_CODES.lookup c = some sid)
    (hf : fetch_bacen_rate (env.bacen sid) = .error e) :
    dispatch_fetch env s now c = ⟨.error e, s, 1⟩ := by
  simp [dispatch_fetch, hc, hsid, hf]

theorem dispatch_unsupported (env : Env) (s : CacheState) (now : ℚ) (c : String)
    (hc : c ≠ "BTC") (hsid : CURRENCY_CODES.lookup c = none) :
    dispatch_fetch env s now c = ⟨.error (.http 400), s, 0⟩ := by
  simp [dispatch_fetch, hc, hsid]

theorem dispatch_calls_le_one (env : Env) (s : CacheState) (now : ℚ) (c : String) :
    (dispatch_fetch env s now c).calls ≤ 1 := by
  by_cases hc : c = "BTC"
  · rw [hc, dispatch_btc]; exact btc_cached_calls_le_one env.btc s now
  · cases hsid : CURRENCY_CODES.lookup c with
    | none => simp [dispatch_unsupported env s now c hc hsid]
    | some sid =>
      cases hf : fetch_bacen_rate (env.bacen sid) with
      | error e => simp [dispatch_fiat_error env s now c sid e hc hsid hf]
      | ok v => simp [dispatch_fiat_ok env s now c sid v hc hsid hf]

theorem dispatch_frame (env : Env) (s : CacheState) (now : ℚ) (c : String) :
    (dispatch_fetch env s now c).state.cache_rates = s.cache_rates ∧
    (dispatch_fetch env s now c).state.cache_time = s.cache_time ∧
    (dispatch_fetch env s now c).state.cache_history = s.cache_history ∧
    (dispatch_fetch env s now c).state.cache_history_time = s.cache_history_time := by
  by_cases hc : c = "BTC"
  · rw [hc, dispatch_btc]; exact btc_cached_frame env.btc s now
  · cases hsid : CURRENCY_CODES.lookup c with
    | none => simp [dispatch_unsupported env s now c hc hsid]
    | some sid =>
      cases hf : fetch_bacen_rate (env.bacen sid) with
      | error e => simp [dispatch_fiat_error env s now c sid e hc hsid hf]
      | ok v => simp [dispatch_fiat_ok env s now c sid v hc hsid hf]

theorem dispatch_error_state (env : Env) (s : CacheState) (now : ℚ) (c : String) (e : PyError)
    (h : (dispatch_fetch env s now c).result = .error e) :
    (dispatch_fetch env s now c).state = s := by
  by_cases hc : c = "BTC"
  · rw [hc, dispatch_btc] at h ⊢; exact btc_cached_error_state env.btc s now e h
  · cases hsid : CURRENCY_CODES.lookup c with
    | none => simp [dispatch_unsupported env s now c hc hsid]
    | some sid =>
      cases hf : fetch_bacen_rate (env.bacen sid) with
      | error f => simp [dispatch_fiat_error env s now c sid f hc hsid hf]
      | ok v => simp [dispatch_fiat_ok env s now c sid v hc hsid hf]

theorem commit_spot_error (now : ℚ) (c : String) (f : StepResult ℚ) (e : PyError)
    (h : f.result = .error e) :
    commit_spot now c f = ⟨.error e, f.state, f.calls⟩ := by
  simp [commit_spot, h]

theorem commit_spot_ok (now : ℚ) (c : String) (f : StepResult ℚ) (v : ℚ)
    (h : f.result = .ok v) :
    commit_spot now c f =
      ⟨.ok (c, v),
       { f.state with cache_rates := (c, v) :: f.state.cache_rates, cache_time := now },
       f.calls⟩ := by
  simp [commit_spot, h]

theorem commit_spot_calls (now : ℚ) (c : String) (f : StepResult ℚ) :
    (commit_spot now c f).calls = f.calls := by
  cases hf : f.result with
  | error e => simp [commit_spot_error now c f e hf]
  | ok v => simp [commit_spot_ok now c f v hf]

/-! ## resolve_rate lemmas -/

theorem resolve_hit (env : Env) (s : CacheState) (now : ℚ) (c : String)
    (h : spot_valid s now c = true) :
    resolve_rate env s now c = ⟨.ok (c, (s.cache_rates.lookup c).getD 0), s, 0⟩ := by
  simp [resolve_rate, h]

theorem resolve_miss (env : Env) (s : CacheState) (now : ℚ) (c : String)
    (h : spot_valid s now c = false) :
    resolve_rate env s now c = commit_spot now c (dispatch_fetch env s now c) := by
  simp [resolve_rate, h]

theorem resolve_calls_le_one (env : Env) (s : CacheState) (now : ℚ) (c : String) :
    (resolve_rate env s now c).calls ≤ 1 := by
  cases h : spot_valid s now c
  · rw [resolve_miss env s now c h, commit_spot_calls]
    exact dispatch_calls_le_one env s now c
  · simp [resolve_hit env s now c h]

theorem spot_valid_iff (s : CacheState) (now : ℚ) (c : String) :
    spot_valid s now c = true ↔
      (now - s.cache_time < 900 ∧ (s.cache_rates.lookup c).isSome = true) := by
  constructor
  · intro h
    have h' := h
    unfold spot_valid at h'
    simp only [Bool.and_eq_true, decide_eq_true_eq] at h'
    exact ⟨h'.1.2, h'.2⟩
  · rintro ⟨h1, h2⟩
    unfold spot_valid
    simp only [Bool.and_eq_true, decide_eq_true_eq]
    exact ⟨⟨by simp [lookup_isSome_not_isEmpty _ _ h2], h1⟩, h2⟩

/-- After a successful cache-miss resolution, the code's entry heads the
spot dict and the shared timestamp equals now. -/
theorem resolve_miss_ok_state (env : Env) (s : CacheState) (now : ℚ) (c : String)
    (hmiss : spot_valid s now c = false)
    (hok : (resolve_rate env s now c).result.isOk = true) :
    ∃ v, resolve_rate env s now c =
      ⟨.ok (c, v),
       { (dispatch_fetch env s now c).state with
         cache_rates := (c, v) :: s.cache_rates, cache_time := now },
       (dispatch_fetch env s now c).calls⟩ := by
  rw [resolve_miss env s now c hmiss] at hok ⊢
  cases hf : (dispatch_fetch env s now c).result with
  | error e => rw [commit_spot_error now c _ e hf] at hok; simp [Except.isOk, Except.toBool] at hok
  | ok v =>
    refine ⟨v, ?_⟩
    rw [commit_spot_ok now c _ v hf]
    have hframe := (dispatch_frame env s now c).1
    rw [hframe]

theorem spot_valid_absent (s : CacheState) (t : ℚ) (c : String)
    (hns : (s.cache_rates.lookup c).isSome = false) : spot_valid s t c = false := by
  cases hv : spot_valid s t c
  · rfl
  · exact absurd ((spot_valid_iff s t c).mp hv).2 (by simp [hns])

/-- Evaluation of convert_amount when both inner rate lookups succeed and
the target rate is non-zero. -/
theorem convert_amount_of_ok (env : Env) (s : CacheState) (now : ℚ)
    (f t : String) (amount fr tr : ℚ) (s1 s2 : CacheState) (c1 c2 : Nat)
    (hf : supported_currencies.contains (pyUpper f) = true)
    (ht : supported_currencies.contains (pyUpper t) = true)
    (h1 : get_rate env s now (pyUpper f) = ⟨.ok fr, s1, c1⟩)
    (h2 : get_rate env s1 now (pyUpper t) = ⟨.ok tr, s2, c2⟩)
    (htr : tr ≠ 0) :
    convert_amount env s now f t amount = ⟨.ok (amount * fr / tr), s2, c1 + c2⟩ := by
  unfold convert_amount
  simp [hf, ht, h1, h2, htr]
  exact ⟨by simpa using hf, by simpa using ht⟩

/-! ## Claim theorems -/

/-- C5: conversion computes amount * from_rate / to_rate through the base
currency BRL, whose rate is the constant 1.0 and is never fetched; in
particular convert from BRL to BRL returns the amount exactly with zero
gateway calls and an unchanged cache state. -/
theorem convert_brl_identity (env : Env) (s : CacheState) (now : ℚ) (amount : ℚ) :
    get_rate env s now "BRL" = ⟨.ok 1, s, 0⟩ ∧
    convert_amount env s now "BRL" "BRL" amount = ⟨.ok amount, s, 0⟩ := by
  constructor
  · rfl
  · have h : convert_amount env s now "BRL" "BRL" amount =
        ⟨.ok (amount * 1 / 1), s, 0 + 0⟩ := rfl
    rw [h]
    simp

/-- C9: division by a zero to_rate is unguarded.  In the reachable world
envZero the EUR series parses to the rate 0 (which passes every check in
fetch_bacen_rate), and converting USD to EUR from the initial state raises
ZeroDivisionError after both gateway calls. -/
theorem convert_zero_to_rate_division_unguarded :
    fetch_bacen_rate (envZero.bacen 21619) = .ok 0 ∧
    (convert_amount envZero initState 0 "USD" "EUR" 100).result = .error .zeroDivision ∧
    (convert_amount envZero initState 0 "USD" "EUR" 100).calls = 2 := by
  refine ⟨by decide, by decide, by decide⟩

/-- C10: the cached-BTC lookup treats a falsy cached value as a miss: the
gateway is skipped exactly when a non-zero rate is cached and its private
timestamp is fresh, in which case the cached value is served and the state
is unchanged; a cached 0 (or an unset cache) always goes to the gateway. -/
theorem btc_cache_falsy_miss (resp : BtcResp) (s : CacheState) (now : ℚ) :
    ((fetch_btc_rate_cached resp s now).calls = 0 ↔
      ∃ v, s.btc_cache = some v ∧ v ≠ 0 ∧ now - s.btc_cache_time < 900) ∧
    (∀ v, s.btc_cache = some v → v ≠ 0 → now - s.btc_cache_time < 900 →
      fetch_btc_rate_cached resp s now = ⟨.ok v, s, 0⟩) ∧
    (s.btc_cache = some 0 → (fetch_btc_rate_cached resp s now).calls = 1) ∧
    (s.btc_cache = none → (fetch_btc_rate_cached resp s now).calls = 1) := by
  have hDur : CACHE_DURATION = 900 := rfl
  rcases btc_cached_characterization resp s now with ⟨hc, hr⟩ | ⟨hc, ⟨e, -, hr⟩ | ⟨v, -, hr⟩⟩ <;>
    rw [hDur] at hc <;>
    simp only [Bool.and_eq_true, Bool.and_eq_false_iff, decide_eq_true_eq,
      decide_eq_false_iff_not] at hc
  · obtain ⟨ht, hfresh⟩ := hc
    cases hcache : s.btc_cache with
    | none => rw [hcache] at ht; simp [btcTruthy] at ht
    | some w =>
      rw [hcache] at ht hr
      have hw : w ≠ 0 := by simpa [btcTruthy] using ht
      refine ⟨?_, ?_, ?_, ?_⟩
      · simp only [hr]
        exact ⟨fun _ => ⟨w, rfl, hw, hfresh⟩, fun _ => by simp⟩
      · intro v hv _ _
        rw [Option.some_inj] at hv
        subst hv
        simpa using hr
      · intro h0
        rw [Option.some_inj] at h0
        exact absurd h0.symm hw.symm
      · intro h0
        exact absurd h0 (by simp)
  · refine ⟨?_, ?_, fun _ => by simp [hr], fun _ => by simp [hr]⟩
    · simp only [hr]
      constructor
      · intro h; exact absurd h (by simp)
      · rintro ⟨v, hv, hvne, hfresh⟩
        rcases hc with ht | hfresh'
        · rw [hv] at ht; simp [btcTruthy] at ht; exact absurd ht hvne
        · exact absurd hfresh hfresh'
    · intro v hv hvne hfresh
      rcases hc with ht | hfresh'
      · rw [hv] at ht; simp [btcTruthy] at ht; exact absurd ht hvne
      · exact absurd hfresh hfresh'
  · refine ⟨?_, ?_, fun _ => by simp [hr], fun _ => by simp [hr]⟩
    · simp only [hr]
      constructor
      · intro h; exact absurd h (by simp)
      · rintro ⟨w, hw, hwne, hfresh⟩
        rcases hc with ht | hfresh'
        · rw [hw] at ht; simp [btcTruthy] at ht; exact absurd ht hwne
        · exact absurd hfresh hfresh'
    · intro w hw hwne hfresh
      rcases hc with ht | hfresh'
      · rw [hw] at ht; simp [btcTruthy] at ht; exact absurd ht hwne
      · exact absurd hfresh hfresh'

/-- C2 counterexample: a 200 response whose last entry carries the
unparseable value "abc" defeats the claim's "fails exactly when" list: the
response is non-empty, the "valor" field is present, no HTTP error
occurred (status 200), and no parsed value exists to equal -1, yet
fetch_bacen_rate fails (float() raises, caught as 500). -/
theorem fetch_bacen_rate_exactness_counterexample :
    fetch_bacen_rate (.ok 200 [⟨some "abc"⟩]) = .error (.http 500) ∧
    ([(⟨some "abc"⟩ : BacenEntry)] ≠ []) ∧
    ((⟨some "abc"⟩ : BacenEntry).valor ≠ none) ∧
    parseDecimal (replaceCommaDot "abc") = none ∧
    ¬(400 ≤ 200) := by
  refine ⟨by decide, by decide, by decide, by decide, by decide⟩

/-- C2 amended: fetch_bacen_rate fails exactly when the response is empty,
the "valor" field is absent, the value fails to parse as a decimal, the
parsed value equals the sentinel -1, or the HTTP call errors; a 4xx/5xx
response carries its upstream status and every other failure carries the
generic 500; on success it returns the last entry's value with the comma
separator converted, e.g. "5,23" as 5.23. -/
theorem fetch_bacen_rate_cases :
    (fetch_bacen_rate .transportError = .error (.http 500)) ∧
    (∀ st body, 400 ≤ st → fetch_bacen_rate (.ok st body) = .error (.http st)) ∧
    (∀ st, ¬(400 ≤ st) → fetch_bacen_rate (.ok st []) = .error (.http 500)) ∧
    (∀ st body last, ¬(400 ≤ st) → body.getLast? = some last → last.valor = none →
      fetch_bacen_rate (.ok st body) = .error (.http 500)) ∧
    (∀ st body last sv, ¬(400 ≤ st) → body.getLast? = some last → last.valor = some sv →
      parseDecimal (replaceCommaDot sv) = none →
      fetch_bacen_rate (.ok st body) = .error (.http 500)) ∧
    (∀ st body last sv, ¬(400 ≤ st) → body.getLast? = some last → last.valor = some sv →
      parseDecimal (replaceCommaDot sv) = some (-1) →
      fetch_bacen_rate (.ok st body) = .error (.http 500)) ∧
    (∀ st body last sv v, ¬(400 ≤ st) → body.getLast? = some last → last.valor = some sv →
      parseDecimal (replaceCommaDot sv) = some v → v ≠ -1 →
      fetch_bacen_rate (.ok st body) = .ok v) ∧
    (parseDecimal (replaceCommaDot "5,23") = some (mkRat 523 100) ∧
      (mkRat 523 100 : ℚ) = 523 / 100) := by
  refine ⟨rfl, ?_, ?_, ?_, ?_, ?_, ?_, by decide, by norm_num [Rat.mkRat_eq_div]⟩
  · intro st body h
    simp [fetch_bacen_rate, h]
  · intro st h
    simp [fetch_bacen_rate, h]
  · intro st body last h hlast hvalor
    simp [fetch_bacen_rate, h, hlast, hvalor]
  · intro st body last sv h hlast hvalor hparse
    simp [fetch_bacen_rate, h, hlast, hvalor, hparse]
  · intro st body last sv h hlast hvalor hparse
    simp [fetch_bacen_rate, h, hlast, hvalor, hparse]
  · intro st body last sv v h hlast hvalor hparse hne
    simp [fetch_bacen_rate, h, hlast, hvalor, hparse, hne]

/-- Witness for C2 amended: each branch of fetch_bacen_rate evaluated at a
concrete response. -/
theorem fetch_bacen_rate_cases_witness :
    fetch_bacen_rate (.ok 404 [⟨some "5,23"⟩]) = .error (.http 404) ∧
    fetch_bacen_rate (.ok 200 ([] : List BacenEntry)) = .error (.http 500) ∧
    fetch_bacen_rate (.ok 200 [⟨none⟩]) = .error (.http 500) ∧
    fetch_bacen_rate (.ok 200 [⟨some "abc"⟩]) = .error (.http 500) ∧
    fetch_bacen_rate (.ok 200 [⟨some "-1"⟩]) = .error (.http 500) ∧
    fetch_bacen_rate (.ok 200 [⟨some "5,23"⟩]) = .ok (mkRat 523 100) :=
  ⟨fetch_bacen_rate_cases.2.1 404 [⟨some "5,23"⟩] (by norm_num),
   fetch_bacen_rate_cases.2.2.1 200 (by norm_num),
   fetch_bacen_rate_cases.2.2.2.1 200 [⟨none⟩] ⟨none⟩ (by norm_num) rfl rfl,
   fetch_bacen_rate_cases.2.2.2.2.1 200 [⟨some "abc"⟩] ⟨some "abc"⟩ "abc" (by norm_num) rfl rfl
     (by decide),
   fetch_bacen_rate_cases.2.2.2.2.2.1 200 [⟨some "-1"⟩] ⟨some "-1"⟩ "-1" (by norm_num) rfl rfl
     (by decide),
   fetch_bacen_rate_cases.2.2.2.2.2.2.1 200 [⟨some "5,23"⟩] ⟨some "5,23"⟩ "5,23" (mkRat 523 100)
     (by norm_num) rfl rfl (by decide) (by decide)⟩

/-- C7: a failed fetch is never cached: whenever get_rates raises, the
entire cache state (spot entries, shared spot timestamp, BTC cache and
history caches) is exactly what it was before the call. -/
theorem failed_fetch_leaves_state_unchanged (env : Env) (s : CacheState) (now : ℚ)
    (code : String) (e : PyError)
    (h : (get_rates env s now code).result = .error e) :
    (get_rates env s now code).state = s := by
  unfold get_rates at h ⊢
  cases hv : spot_valid s now (pyUpper code)
  · rw [resolve_miss env s now _ hv] at h ⊢
    cases hf : (dispatch_fetch env s now (pyUpper code)).result with
    | error f =>
      rw [commit_spot_error now _ _ f hf] at h ⊢
      exact dispatch_error_state env s now _ f hf
    | ok v =>
      rw [commit_spot_ok now _ _ v hf] at h
      simp at h
  · rw [resolve_hit env s now _ hv] at h
    simp at h

/-- Witness for C7: with every upstream down, resolving USD from the
initial state fails and leaves the state untouched. -/
theorem failed_fetch_leaves_state_unchanged_witness :
    (get_rates envDown initState 0 "USD").state = initState :=
  failed_fetch_leaves_state_unchanged envDown initState 0 "USD" (.http 500) (by decide)

/-- Every run of get_history either leaves the state unchanged (rejected
request, cache hit, or failed fetch) or conses exactly one entry for its
own key onto the history dict and the history timestamp dict. -/
theorem get_history_state (env : Env) (s : CacheState) (now : ℚ) (base0 : String) (days : Nat) :
    (get_history env s now base0 days).state = s ∨
    ∃ res, (get_history env s now base0 days).state =
      { s with
        cache_history := (pyUpper base0 ++ "_" ++ toString days, res) :: s.cache_history,
        cache_history_time :=
          (pyUpper base0 ++ "_" ++ toString days, now) :: s.cache_history_time } := by
  unfold get_history
  dsimp only
  split
  · exact .inl rfl
  split
  · exact .inl rfl
  split
  · exact .inl rfl
  split
  · exact .inl rfl
  · exact .inr ⟨_, rfl⟩

/-- C6: history cache entries are independent per (base, days) key:
running get_history leaves every other key's cached series, its freshness
timestamp, and hence its freshness verdict at any time, unchanged. -/
theorem history_keys_independent (env : Env) (s : CacheState) (now : ℚ) (base0 : String)
    (days : Nat) (key2 : String)
    (hne : key2 ≠ pyUpper base0 ++ "_" ++ toString days) :
    ((get_history env s now base0 days).state.cache_history.lookup key2 =
      s.cache_history.lookup key2) ∧
    ((get_history env s now base0 days).state.cache_history_time.lookup key2 =
      s.cache_history_time.lookup key2) ∧
    (∀ t, hist_valid (get_history env s now base0 days).state t key2 = hist_valid s t key2) := by
  have hmain :
      ((get_history env s now base0 days).state.cache_history.lookup key2 =
        s.cache_history.lookup key2) ∧
      ((get_history env s now base0 days).state.cache_history_time.lookup key2 =
        s.cache_history_time.lookup key2) := by
    rcases get_history_state env s now base0 days with h | ⟨res, h⟩
    · rw [h]; exact ⟨rfl, rfl⟩
    · rw [h]
      exact ⟨lookup_cons_ne _ _ _ _ hne, lookup_cons_ne _ _ _ _ hne⟩
  refine ⟨hmain.1, hmain.2, fun t => ?_⟩
  unfold hist_valid
  rw [hmain.1, hmain.2]

/-- Witness for C6: fetching USD_30 from a state holding only a stale
USD_60 series leaves the USD_60 entry, its timestamp, and its staleness
verdict intact. -/
theorem history_keys_independent_witness :
    ((get_history envA stateHist30 2000 "USD" 60).state.cache_history.lookup "USD_30" =
      stateHist30.cache_history.lookup "USD_30") ∧
    ((get_history envA stateHist30 2000 "USD" 60).state.cache_history_time.lookup "USD_30" =
      stateHist30.cache_history_time.lookup "USD_30") :=
  ⟨(history_keys_independent envA stateHist30 2000 "USD" 60 "USD_30" (by decide)).1,
   (history_keys_independent envA stateHist30 2000 "USD" 60 "USD_30" (by decide)).2.1⟩

/-- C3: two resolutions of the same code within the 900-second TTL perform
at most one upstream call in total (given the first succeeds), and the
spot cache serves a request exactly when the shared timestamp is fresh AND
the code already has an entry; a fresh timestamp with a never-fetched
supported code still misses and triggers a gateway fetch. -/
theorem resolve_twice_within_ttl_single_upstream (env : Env) (s : CacheState) (t1 t2 : ℚ)
    (c : String) :
    ((get_rates env s t1 c).result.isOk = true → t2 - t1 < 900 →
      (get_rates env s t1 c).calls +
        (get_rates env (get_rates env s t1 c).state t2 c).calls ≤ 1) ∧
    (spot_valid s t1 (pyUpper c) = true ↔
      (t1 - s.cache_time < 900 ∧ (s.cache_rates.lookup (pyUpper c)).isSome = true)) ∧
    (spot_valid s t1 (pyUpper c) = true →
      get_rates env s t1 c =
        ⟨.ok (pyUpper c, (s.cache_rates.lookup (pyUpper c)).getD 0), s, 0⟩) ∧
    ((s.cache_rates.lookup (pyUpper c)).isSome = false → spot_valid s t1 (pyUpper c) = false) ∧
    (∀ sid, CURRENCY_CODES.lookup (pyUpper c) = some sid →
      (s.cache_rates.lookup (pyUpper c)).isSome = false → (get_rates env s t1 c).calls = 1) := by
  refine ⟨?_, spot_valid_iff s t1 (pyUpper c), ?_, spot_valid_absent s t1 (pyUpper c), ?_⟩
  · intro hok hlt
    unfold get_rates at hok ⊢
    cases hv : spot_valid s t1 (pyUpper c)
    · obtain ⟨v, hr⟩ := resolve_miss_ok_state env s t1 (pyUpper c) hv hok
      rw [hr]
      dsimp only
      have hvalid2 : spot_valid
          { (dispatch_fetch env s t1 (pyUpper c)).state with
            cache_rates := (pyUpper c, v) :: s.cache_rates, cache_time := t1 }
          t2 (pyUpper c) = true := by
        rw [spot_valid_iff]
        exact ⟨by simpa using hlt, by simp [lookup_cons_self]⟩
      rw [resolve_hit env _ t2 (pyUpper c) hvalid2]
      simpa using dispatch_calls_le_one env s t1 (pyUpper c)
    · rw [resolve_hit env s t1 (pyUpper c) hv]
      simpa using resolve_calls_le_one env s t2 (pyUpper c)
  · intro hv
    unfold get_rates
    exact resolve_hit env s t1 (pyUpper c) hv
  · intro sid hsid hns
    have hv := spot_valid_absent s t1 (pyUpper c) hns
    have hBTC : pyUpper c ≠ "BTC" := by
      intro hbtc
      rw [hbtc] at hsid
      have hnone : CURRENCY_CODES.lookup "BTC" = none := by decide
      rw [hnone] at hsid
      exact Option.noConfusion hsid
    unfold get_rates
    rw [resolve_miss env s t1 (pyUpper c) hv, commit_spot_calls]
    cases hf : fetch_bacen_rate (env.bacen sid) with
    | error e => rw [dispatch_fiat_error env s t1 (pyUpper c) sid e hBTC hsid hf]
    | ok v => rw [dispatch_fiat_ok env s t1 (pyUpper c) sid v hBTC hsid hf]

/-- Witness for C3: resolving USD twice (times 0 and 1) in a healthy world
from the empty initial state makes exactly one upstream call in total, and
the first call alone performs exactly one. -/
theorem resolve_twice_within_ttl_single_upstream_witness :
    ((get_rates envA initState 0 "USD").calls +
      (get_rates envA (get_rates envA initState 0 "USD").state 1 "USD").calls ≤ 1) ∧
    (get_rates envA initState 0 "USD").calls = 1 :=
  ⟨(resolve_twice_within_ttl_single_upstream envA initState 0 1 "USD").1 (by decide)
      (by norm_num),
   (resolve_twice_within_ttl_single_upstream envA initState 0 1 "USD").2.2.2.2 1 (by decide)
      (by decide)⟩

/-- C4: every successful cache-miss resolution stamps the shared spot
timestamp to the current time, so resolving A makes a stale cached entry
for a different code B look fresh: a resolve of B within the TTL of A's
resolution serves B's old value with no upstream call. -/
theorem spot_timestamp_refresh_marks_stale_entry_fresh (env : Env) (s : CacheState)
    (t1 t2 : ℚ) (A B : String) (v : ℚ)
    (hAB : pyUpper A ≠ pyUpper B)
    (hB : s.cache_rates.lookup (pyUpper B) = some v)
    (hstale : 900 ≤ t1 - s.cache_time)
    (hok : (get_rates env s t1 A).result.isOk = true)
    (hfresh : t2 - t1 < 900) :
    (get_rates env s t1 A).state.cache_time = t1 ∧
    get_rates env (get_rates env s t1 A).state t2 B =
      ⟨.ok (pyUpper B, v), (get_rates env s t1 A).state, 0⟩ := by
  have hvA : spot_valid s t1 (pyUpper A) = false := by
    cases hv : spot_valid s t1 (pyUpper A)
    · rfl
    · have h1 := ((spot_valid_iff s t1 (pyUpper A)).mp hv).1
      linarith
  unfold get_rates at hok ⊢
  obtain ⟨w, hr⟩ := resolve_miss_ok_state env s t1 (pyUpper A) hvA hok
  rw [hr]
  dsimp only
  refine ⟨rfl, ?_⟩
  have hlook : (((pyUpper A, w) :: s.cache_rates).lookup (pyUpper B)) = some v := by
    rw [lookup_cons_ne _ _ _ _ (Ne.symm hAB), hB]
  have hvalid : spot_valid
      { (dispatch_fetch env s t1 (pyUpper A)).state with
        cache_rates := (pyUpper A, w) :: s.cache_rates, cache_time := t1 }
      t2 (pyUpper B) = true := by
    rw [spot_valid_iff]
    exact ⟨by simpa using hfresh, by simp [hlook]⟩
  rw [resolve_hit env _ t2 (pyUpper B) hvalid]
  simp [hlook]

/-- Witness for C4: the state holds a stale EUR entry (value 7, stamped at
time 0); successfully resolving USD at time 1000 re-stamps the shared
timestamp, and resolving EUR at time 1500 then serves the old 7 with no
gateway call. -/
theorem spot_timestamp_refresh_marks_stale_entry_fresh_witness :
    (get_rates envA stateStaleEur 1000 "USD").state.cache_time = 1000 ∧
    get_rates envA (get_rates envA stateStaleEur 1000 "USD").state 1500 "EUR" =
      ⟨.ok ("EUR", 7), (get_rates envA stateStaleEur 1000 "USD").state, 0⟩ :=
  spot_timestamp_refresh_marks_stale_entry_fresh envA stateStaleEur 1000 1500 "USD" "EUR" 7
    (by decide) (by decide) (by norm_num [stateStaleEur, initState])
    (by with_unfolding_all decide) (by norm_num)

/-- Folding price samples none of which fall on date d into the series
dict leaves the binding of d unchanged. -/
theorem buildBtcSeries_no_match (l : List (Nat × ℚ)) (acc : List (String × ℚ)) (d : String)
    (h : ∀ e ∈ l, dateOfMillis e.1 ≠ d) :
    (l.foldl (fun acc e => (dateOfMillis e.1, e.2) :: acc) acc).lookup d = acc.lookup d := by
  induction l generalizing acc with
  | nil => rfl
  | cons e l ih =>
    rw [List.foldl_cons, ih _ (fun x hx => h x (List.mem_cons_of_mem e hx))]
    exact lookup_cons_ne acc d (dateOfMillis e.1) e.2 (Ne.symm (h e (List.mem_cons_self e l)))

/-- C8: fetch_btc_history keys each sample by the calendar date of its
millisecond timestamp and keeps the last sample seen for a date: whenever
the sample (t2, p2) shares its date with an earlier sample (t1, p1) and no
later sample falls on that date, the resulting series maps the date to p2
(the later value, no averaging). -/
theorem btc_history_same_day_last_wins (status : Nat) (pre mid post : List (Nat × ℚ))
    (t1 t2 : Nat) (p1 p2 : ℚ) (r : List (String × ℚ))
    (hst : ¬ (400 ≤ status))
    (hd : dateOfMillis t1 = dateOfMillis t2)
    (hpost : ∀ e ∈ post, dateOfMillis e.1 ≠ dateOfMillis t2)
    (hres : fetch_btc_history (.ok status (pre ++ (t1, p1) :: mid ++ (t2, p2) :: post)) = .ok r) :
    r.lookup (dateOfMillis t2) = some p2 ∧ r.lookup (dateOfMillis t1) = some p2 := by
  have hr : r = buildBtcSeries (pre ++ (t1, p1) :: mid ++ (t2, p2) :: post) := by
    simp only [fetch_btc_history, hst, if_false, Except.ok.injEq] at hres
    exact hres.symm
  have hsplit : pre ++ (t1, p1) :: mid ++ (t2, p2) :: post
      = ((pre ++ (t1, p1) :: mid) ++ [(t2, p2)]) ++ post := by
    simp
  have hmain : r.lookup (dateOfMillis t2) = some p2 := by
    rw [hr]
    unfold buildBtcSeries
    rw [hsplit, List.foldl_append, buildBtcSeries_no_match post _ _ hpost, List.foldl_append]
    exact lookup_cons_self _ _ _
  exact ⟨hmain, by rw [hd]; exact hmain⟩

/-- Witness for C8: two samples on 1970-01-01 (epoch milliseconds 0 and
1000) collapse to one entry holding the later value 20. -/
theorem btc_history_same_day_last_wins_witness :
    (buildBtcSeries [(0, 10), (1000, 20)]).lookup (dateOfMillis 1000) = some 20 :=
  (btc_history_same_day_last_wins 200 [] [] [] 0 1000 10 20
    (buildBtcSeries [(0, 10), (1000, 20)]) (by norm_num) (by decide) (by simp) rfl).1

/-- C1 counterexample: the convert handler's rate lookups do NOT go
through the spot cache.  With USD freshly cached at 5 (shared timestamp
equal to now) while the gateway reports USD at 6 and EUR at 2, resolve
serves the cached 5 for USD, yet convert fetches both rates from the
gateway (two upstream calls) and returns 100 * 6 / 2 = 300, not
resolve(USD) * 100 / resolve(EUR) = 250, although both resolutions observe
the same cache state. -/
theorem convert_bypasses_spot_cache_counterexample :
    (get_rates envA stateUsd5 0 "USD").result = .ok ("USD", 5) ∧
    (get_rates envA stateUsd5 0 "EUR").result = .ok ("EUR", 2) ∧
    (convert_amount envA stateUsd5 0 "USD" "EUR" 100).result = .ok 300 ∧
    (convert_amount envA stateUsd5 0 "USD" "EUR" 100).calls = 2 ∧
    (300 : ℚ) ≠ 5 * 100 / 2 := by
  refine ⟨by with_unfolding_all decide, by with_unfolding_all decide,
    by with_unfolding_all decide, by with_unfolding_all decide, by norm_num⟩

/-- C1 amended: convert resolves its two rates through its own get_rate,
which bypasses the spot cache (each fiat lookup always triggers its own
gateway call); the stated identity convert(USD, EUR, 100) =
resolve(USD) * 100 / resolve(EUR) holds, exactly in the rational model,
when neither code has a spot-cache entry, both sides observing the same
cache state. -/
theorem convert_matches_resolve_on_spot_miss (env : Env) (s : CacheState) (now : ℚ) (u e : ℚ)
    (hU : fetch_bacen_rate (env.bacen 1) = .ok u)
    (hE : fetch_bacen_rate (env.bacen 21619) = .ok e)
    (hmU : s.cache_rates.lookup "USD" = none)
    (hmE : s.cache_rates.lookup "EUR" = none)
    (he : e ≠ 0) :
    (get_rates env s now "USD").result = .ok ("USD", u) ∧
    (get_rates env s now "EUR").result = .ok ("EUR", e) ∧
    (convert_amount env s now "USD" "EUR" 100).result = .ok (u * 100 / e) ∧
    (convert_amount env s now "USD" "EUR" 100).calls = 2 := by
  have hvU : spot_valid s now "USD" = false := spot_valid_absent s now "USD" (by simp [hmU])
  have hvE : spot_valid s now "EUR" = false := spot_valid_absent s now "EUR" (by simp [hmE])
  have hg1 : get_rate env s now "USD" = ⟨.ok u, s, 1⟩ := by
    have h0 : get_rate env s now "USD" =
        match fetch_bacen_rate (env.bacen 1) with
        | .ok v => (⟨.ok v, s, 1⟩ : StepResult ℚ)
        | .error er => (⟨.error er, s, 1⟩ : StepResult ℚ) := rfl
    rw [h0, hU]
  have hg2 : get_rate env s now "EUR" = ⟨.ok e, s, 1⟩ := by
    have h0 : get_rate env s now "EUR" =
        match fetch_bacen_rate (env.bacen 21619) with
        | .ok v => (⟨.ok v, s, 1⟩ : StepResult ℚ)
        | .error er => (⟨.error er, s, 1⟩ : StepResult ℚ) := rfl
    rw [h0, hE]
  have hcv := convert_amount_of_ok env s now "USD" "EUR" 100 u e s s 1 1
    (by decide) (by decide) hg1 hg2 he
  refine ⟨?_, ?_, ?_, ?_⟩
  · unfold get_rates
    have hpy : pyUpper "USD" = "USD" := rfl
    rw [hpy, resolve_miss env s now "USD" hvU,
        dispatch_fiat_ok env s now "USD" 1 u (by decide) (by decide) hU,
        commit_spot_ok now "USD" _ u rfl]
  · unfold get_rates
    have hpy : pyUpper "EUR" = "EUR" := rfl
    rw [hpy, resolve_miss env s now "EUR" hvE,
        dispatch_fiat_ok env s now "EUR" 21619 e (by decide) (by decide) hE,
        commit_spot_ok now "EUR" _ e rfl]
  · rw [hcv]
    simp [mul_comm]
  · rw [hcv]

/-- Witness for C1 amended: from the empty initial state, resolve reports
USD at 6 and EUR at 2, and convert returns 6 * 100 / 2 with two gateway
calls. -/
theorem convert_matches_resolve_on_spot_miss_witness :
    (get_rates envA initState 0 "USD").result = .ok ("USD", 6) ∧
    (get_rates envA initState 0 "EUR").result = .ok ("EUR", 2) ∧
    (convert_amount envA initState 0 "USD" "EUR" 100).result = .ok (6 * 100 / 2) ∧
    (convert_amount envA initState 0 "USD" "EUR" 100).calls = 2 :=
  convert_matches_resolve_on_spot_miss envA initState 0 6 2 (by decide) (by decide)
    rfl rfl (by norm_num)

/-- Witness for C10: with a cached non-zero rate 5 stamped at time 0, a
lookup at time 10 serves the cache without a gateway call; with a cached 0
the gateway is called even though the timestamp is equally fresh. -/
theorem btc_cache_falsy_miss_witness :
    fetch_btc_rate_cached .transportError stateBtc5 10 = ⟨.ok 5, stateBtc5, 0⟩ ∧
    (fetch_btc_rate_cached .transportError stateBtc0 10).calls = 1 :=
  ⟨(btc_cache_falsy_miss .transportError stateBtc5 10).2.1 5 rfl (by norm_num)
      (by norm_num [stateBtc5, initState]),
   (btc_cache_falsy_miss .transportError stateBtc0 10).2.2.1 rfl⟩

end Coinverter
